import Mathlib

/-!
Verification of the OpenSubdiv `Osd::CLEvaluator` dispatch engine
(`opensubdiv/osd/clEvaluator.h`).

The header defines the dispatch/compile/buffer-management layer: the
`CLEvaluator` class with its `Create`/`Compile` lifecycle, the raw
`EvalStencils`/`EvalPatches` dispatch entry points, the buffer-object
convenience overloads, and the static generic entry points that fall back
to an on-demand temporary instance.  Device buffers (`cl_mem`) are
modelled as total maps from word index to rational value; machine floats
are modelled by exact rationals, which the spec's linear-combination
semantics determines exactly.  The bodies of the raw `cl_mem` entry
points (`EvalStencils`, `EvalPatches`, `Compile`) live in the
implementation translation unit and are modelled from the specification;
everything visible in the header (the templates and `Create`) is
translated directly from the source.
-/

/-- Modelled from the spec: `VertexBufferDescriptor`
(from `osd/vertexDescriptor.h`, not part of the analysed sources) is a
view `{offset, length, stride}` into a raw attribute buffer, holding
non-negative integers. -/
structure VertexBufferDescriptor where
  offset : Nat
  length : Nat
  stride : Nat
deriving DecidableEq, Repr

/-- Modelled from the spec: the default-constructed (empty) descriptor
`VertexBufferDescriptor()` has all three fields zero. -/
def VertexBufferDescriptor.defaultDesc : VertexBufferDescriptor :=
  { offset := 0, length := 0, stride := 0 }

/-- Contents of a `cl_mem` device buffer of floats: a total map from
word index to value (rationals standing in for exact float values). -/
def Mem : Type := Nat → ℚ

/-- Contents of a `cl_mem` device buffer of ints, as used for the
`sizes` / `offsets` / `indices` arrays of a stencil table. -/
def IntMem : Type := Nat → Nat

/-- The compiled program/kernel pair held by a `CLEvaluator`
(`_program`, `_stencilKernel`, `_patchKernel`): the kernels are
specialized to the source/destination descriptor pair they were
compiled for, which is all that is observable of them here. -/
structure CompiledProgram where
  srcDesc : VertexBufferDescriptor
  dstDesc : VertexBufferDescriptor
deriving DecidableEq, Repr

/-- The `CLEvaluator` state: a context handle, a command-queue handle,
and the (initially absent) compiled kernel slot. -/
structure CLEvaluator where
  clContext : Nat
  clCommandQueue : Nat
  kernels : Option CompiledProgram
deriving DecidableEq, Repr

/-- Modelled from the spec: whether the OpenCL runtime successfully
builds the program synthesized for a given descriptor pair is an
external-platform outcome; it is abstracted as an oracle. -/
def CompileOracle : Type := VertexBufferDescriptor → VertexBufferDescriptor → Bool

/-- Modelled from the spec: `CLEvaluator::Compile(srcDesc, dstDesc)`
synthesizes and builds the kernel program for the descriptor pair.  On
success it replaces the kernel slot and returns true; on failure it
returns false and leaves the prior kernels untouched.  The returned
pair is (result, evaluator state after the call). -/
def CLEvaluator.Compile (compileOk : CompileOracle) (e : CLEvaluator)
    (srcDesc dstDesc : VertexBufferDescriptor) : Bool × CLEvaluator :=
  if compileOk srcDesc dstDesc then
    (true, { e with kernels := some ⟨srcDesc, dstDesc⟩ })
  else
    (false, e)

/-- `CLEvaluator::Create(srcDesc, dstDesc, clContext, clCommandQueue)`:
construct a fresh instance (kernel slot empty), `Compile` it, return it
on success and destroy it (returning NULL) on failure.  Translated from
the header. -/
def CLEvaluator.CreateCL (compileOk : CompileOracle)
    (srcDesc dstDesc : VertexBufferDescriptor)
    (clContext clCommandQueue : Nat) : Option CLEvaluator :=
  let kernel : CLEvaluator :=
    { clContext := clContext, clCommandQueue := clCommandQueue, kernels := none }
  let compiled := kernel.Compile compileOk srcDesc dstDesc
  if compiled.1 then some compiled.2 else none

/-- A device-context object as required by the generic entry points:
exposes `GetContext()` and `GetCommandQueue()`. -/
structure DeviceContext where
  GetContext : Nat
  GetCommandQueue : Nat

/-- The generic creator template: delegates to `CreateCL` with the
context and queue obtained from the device context.  Translated from
the header. -/
def CLEvaluator.Create (compileOk : CompileOracle)
    (srcDesc dstDesc : VertexBufferDescriptor)
    (deviceContext : DeviceContext) : Option CLEvaluator :=
  CLEvaluator.CreateCL compileOk srcDesc dstDesc
    deviceContext.GetContext deviceContext.GetCommandQueue

/-- A host-side buffer object as required by the convenience overloads:
`BindCLBuffer(queue)` yields the device buffer contents. -/
structure CLBufferObj where
  BindCLBuffer : Nat → Mem

/-- The duck-typed stencil-table contract consumed by the convenience
overload: the four device buffers and the stencil count, mirroring
`CLStencilTable`'s accessors. -/
structure CLStencilTable where
  GetSizesBuffer : IntMem
  GetOffsetsBuffer : IntMem
  GetIndicesBuffer : IntMem
  GetWeightsBuffer : Mem
  GetNumStencils : Nat

/-- The duck-typed patch-table contract consumed by the patch
convenience overloads: the three buffer handles used by the kernel. -/
structure CLPatchTable where
  GetPatchArrayBuffer : Mem
  GetPatchIndexBuffer : Mem
  GetPatchParamBuffer : Mem

/-- Write one output vertex record: store `vals c` for each component
`c < d.length` at device-buffer position `d.offset + i * d.stride + c`,
leaving every other position unchanged. -/
def writeVertex (d : VertexBufferDescriptor) (i : Nat) (vals : Nat → ℚ)
    (dst : Mem) : Mem := fun p =>
  if d.offset + i * d.stride ≤ p ∧ p < d.offset + i * d.stride + d.length then
    vals (p - (d.offset + i * d.stride))
  else
    dst p

/-- The value the stencil kernel computes for output vertex `i`,
component `c`: the weighted sum over the vertex's contributions, the
source being read through `srcDesc`. -/
def stencilValue (srcDesc : VertexBufferDescriptor)
    (sizes offsets indices : IntMem) (weights : Mem) (src : Mem)
    (i c : Nat) : ℚ :=
  ∑ j ∈ Finset.range (sizes i),
    weights (offsets i + j) *
      src (srcDesc.offset + indices (offsets i + j) * srcDesc.stride + c)

/-- One stencil-kernel dispatch over the output-vertex range
`[start, endIdx)`: each vertex in range gets its stencil value written
through `dstDesc`; the work items are independent, so a left fold over
the range is a faithful sequentialization. -/
def evalStencilsRange (src : Mem) (srcDesc : VertexBufferDescriptor)
    (dstDesc : VertexBufferDescriptor) (sizes offsets indices : IntMem)
    (weights : Mem) (start endIdx : Nat) (dst : Mem) : Mem :=
  (List.range' start (endIdx - start)).foldl
    (fun b i =>
      writeVertex dstDesc i
        (fun c => stencilValue srcDesc sizes offsets indices weights src i c) b)
    dst

/-- Modelled from the spec: the raw
`CLEvaluator::EvalStencils(cl_mem ..., start, end)` dispatch (its body
is in the implementation translation unit).  Returns false with the
destination untouched if no kernel has been compiled; otherwise
enqueues the stencil kernel over `[start, endIdx)` and reports success.
The returned pair is (result, destination contents after the
dispatch completes). -/
def CLEvaluator.EvalStencils (e : CLEvaluator)
    (src : Mem) (srcDesc : VertexBufferDescriptor)
    (dst : Mem) (dstDesc : VertexBufferDescriptor)
    (sizes offsets indices : IntMem) (weights : Mem)
    (start endIdx : Nat) : Bool × Mem :=
  match e.kernels with
  | none => (false, dst)
  | some _ =>
      (true, evalStencilsRange src srcDesc dstDesc
               sizes offsets indices weights start endIdx dst)

/-- The convenience `EvalStencils` overload over buffer/table objects:
binds each buffer for the evaluator's own command queue, pulls the four
table buffers and the count, and forwards to the raw form over
`[0, GetNumStencils())`.  Translated from the header. -/
def CLEvaluator.EvalStencilsObj (e : CLEvaluator)
    (srcBuffer : CLBufferObj) (srcDesc : VertexBufferDescriptor)
    (dstBuffer : CLBufferObj) (dstDesc : VertexBufferDescriptor)
    (stencilTable : CLStencilTable) : Bool × Mem :=
  e.EvalStencils (srcBuffer.BindCLBuffer e.clCommandQueue) srcDesc
    (dstBuffer.BindCLBuffer e.clCommandQueue) dstDesc
    stencilTable.GetSizesBuffer
    stencilTable.GetOffsetsBuffer
    stencilTable.GetIndicesBuffer
    stencilTable.GetWeightsBuffer
    0
    stencilTable.GetNumStencils

/-- The static generic `EvalStencils` entry point: a non-null instance
is used directly; a null instance triggers on-demand creation of a
temporary evaluator compiled for the given descriptors, one dispatch
through it, and its destruction.  Translated from the header. -/
def CLEvaluator.EvalStencilsStatic (compileOk : CompileOracle)
    (srcBuffer : CLBufferObj) (srcDesc : VertexBufferDescriptor)
    (dstBuffer : CLBufferObj) (dstDesc : VertexBufferDescriptor)
    (stencilTable : CLStencilTable)
    (instOpt : Option CLEvaluator)
    (deviceContext : DeviceContext) : Bool × Mem :=
  match instOpt with
  | some inst =>
      inst.EvalStencilsObj srcBuffer srcDesc dstBuffer dstDesc stencilTable
  | none =>
      match CLEvaluator.Create compileOk srcDesc dstDesc deviceContext with
      | some inst =>
          inst.EvalStencilsObj srcBuffer srcDesc dstBuffer dstDesc stencilTable
      | none => (false, dstBuffer.BindCLBuffer deviceContext.GetCommandQueue)

/-- Modelled from the spec: the limit-surface basis evaluation is an
external collaborator (explicitly out of scope); it is abstracted as a
map from the source data, its descriptor, and the four patch buffers to
the (position, du, dv) component values per patch coordinate `q` and
component `c`. -/
def LimitEval : Type :=
  Mem → VertexBufferDescriptor → Mem → Mem → Mem → Mem →
    Nat → Nat → ℚ × ℚ × ℚ

/-- One patch-kernel output pass: write the per-coordinate component
values for coordinates `0, ..., numPatchCoords - 1` through `desc`. -/
def writePatchesRange (desc : VertexBufferDescriptor)
    (vals : Nat → Nat → ℚ) (numPatchCoords : Nat) (buf : Mem) : Mem :=
  (List.range' 0 numPatchCoords).foldl
    (fun b q => writeVertex desc q (vals q) b) buf

/-- Modelled from the spec: the raw
`CLEvaluator::EvalPatches(cl_mem ..., du, duDesc, dv, dvDesc, ...)`
dispatch (its body is in the implementation translation unit).  Returns
false with all buffers untouched if no kernel has been compiled.
Otherwise writes positions through `dstDesc`, and the two tangent
outputs through their descriptors into the derivative buffers when the
handles are non-null (`none` models a null `cl_mem` handle; an empty
descriptor writes nothing).  The result tuple is
(result, dst contents, du contents, dv contents). -/
def CLEvaluator.EvalPatches (e : CLEvaluator) (limitEval : LimitEval)
    (src : Mem) (srcDesc : VertexBufferDescriptor)
    (dst : Mem) (dstDesc : VertexBufferDescriptor)
    (du : Option Mem) (duDesc : VertexBufferDescriptor)
    (dv : Option Mem) (dvDesc : VertexBufferDescriptor)
    (numPatchCoords : Nat)
    (patchCoordsBuffer patchArrayBuffer patchIndexBuffer patchParamsBuffer : Mem) :
    Bool × Mem × Option Mem × Option Mem :=
  match e.kernels with
  | none => (false, dst, du, dv)
  | some _ =>
      (true,
       writePatchesRange dstDesc
         (fun q c => (limitEval src srcDesc patchCoordsBuffer patchArrayBuffer
                        patchIndexBuffer patchParamsBuffer q c).1)
         numPatchCoords dst,
       du.map (fun b =>
         writePatchesRange duDesc
           (fun q c => (limitEval src srcDesc patchCoordsBuffer patchArrayBuffer
                          patchIndexBuffer patchParamsBuffer q c).2.1)
           numPatchCoords b),
       dv.map (fun b =>
         writePatchesRange dvDesc
           (fun q c => (limitEval src srcDesc patchCoordsBuffer patchArrayBuffer
                          patchIndexBuffer patchParamsBuffer q c).2.2)
           numPatchCoords b))

/-- The no-derivative convenience `EvalPatches` overload: binds the
buffers for the evaluator's queue and forwards to the raw
derivative-capable dispatch with null (zero) derivative handles and
default-constructed descriptors.  Translated from the header. -/
def CLEvaluator.EvalPatchesObj (e : CLEvaluator) (limitEval : LimitEval)
    (srcBuffer : CLBufferObj) (srcDesc : VertexBufferDescriptor)
    (dstBuffer : CLBufferObj) (dstDesc : VertexBufferDescriptor)
    (numPatchCoords : Nat)
    (patchCoords : CLBufferObj)
    (patchTable : CLPatchTable) : Bool × Mem × Option Mem × Option Mem :=
  e.EvalPatches limitEval
    (srcBuffer.BindCLBuffer e.clCommandQueue) srcDesc
    (dstBuffer.BindCLBuffer e.clCommandQueue) dstDesc
    none VertexBufferDescriptor.defaultDesc
    none VertexBufferDescriptor.defaultDesc
    numPatchCoords
    (patchCoords.BindCLBuffer e.clCommandQueue)
    patchTable.GetPatchArrayBuffer
    patchTable.GetPatchIndexBuffer
    patchTable.GetPatchParamBuffer

/-- The derivative-capable convenience `EvalPatches` overload: binds
all five buffers for the evaluator's queue and forwards to the raw
dispatch.  Translated from the header. -/
def CLEvaluator.EvalPatchesDerivObj (e : CLEvaluator) (limitEval : LimitEval)
    (srcBuffer : CLBufferObj) (srcDesc : VertexBufferDescriptor)
    (dstBuffer : CLBufferObj) (dstDesc : VertexBufferDescriptor)
    (duBuffer : CLBufferObj) (duDesc : VertexBufferDescriptor)
    (dvBuffer : CLBufferObj) (dvDesc : VertexBufferDescriptor)
    (numPatchCoords : Nat)
    (patchCoords : CLBufferObj)
    (patchTable : CLPatchTable) : Bool × Mem × Option Mem × Option Mem :=
  e.EvalPatches limitEval
    (srcBuffer.BindCLBuffer e.clCommandQueue) srcDesc
    (dstBuffer.BindCLBuffer e.clCommandQueue) dstDesc
    (some (duBuffer.BindCLBuffer e.clCommandQueue)) duDesc
    (some (dvBuffer.BindCLBuffer e.clCommandQueue)) dvDesc
    numPatchCoords
    (patchCoords.BindCLBuffer e.clCommandQueue)
    patchTable.GetPatchArrayBuffer
    patchTable.GetPatchIndexBuffer
    patchTable.GetPatchParamBuffer

/-- The static generic no-derivative `EvalPatches` entry point: a
non-null instance is used directly; a null instance triggers on-demand
creation (from `srcDesc`/`dstDesc` only), one dispatch, destruction.
Translated from the header. -/
def CLEvaluator.EvalPatchesStatic (compileOk : CompileOracle)
    (limitEval : LimitEval)
    (srcBuffer : CLBufferObj) (srcDesc : VertexBufferDescriptor)
    (dstBuffer : CLBufferObj) (dstDesc : VertexBufferDescriptor)
    (numPatchCoords : Nat)
    (patchCoords : CLBufferObj)
    (patchTable : CLPatchTable)
    (instOpt : Option CLEvaluator)
    (deviceContext : DeviceContext) : Bool × Mem × Option Mem × Option Mem :=
  match instOpt with
  | some inst =>
      inst.EvalPatchesObj limitEval srcBuffer srcDesc dstBuffer dstDesc
        numPatchCoords patchCoords patchTable
  | none =>
      match CLEvaluator.Create compileOk srcDesc dstDesc deviceContext with
      | some inst =>
          inst.EvalPatchesObj limitEval srcBuffer srcDesc dstBuffer dstDesc
            numPatchCoords patchCoords patchTable
      | none =>
          (false, dstBuffer.BindCLBuffer deviceContext.GetCommandQueue,
           none, none)

/-- The static generic derivative-capable `EvalPatches` entry point:
the on-demand temporary is created from `srcDesc`/`dstDesc` only (the
derivative descriptors play no part in compilation).  Translated from
the header. -/
def CLEvaluator.EvalPatchesDerivStatic (compileOk : CompileOracle)
    (limitEval : LimitEval)
    (srcBuffer : CLBufferObj) (srcDesc : VertexBufferDescriptor)
    (dstBuffer : CLBufferObj) (dstDesc : VertexBufferDescriptor)
    (duBuffer : CLBufferObj) (duDesc : VertexBufferDescriptor)
    (dvBuffer : CLBufferObj) (dvDesc : VertexBufferDescriptor)
    (numPatchCoords : Nat)
    (patchCoords : CLBufferObj)
    (patchTable : CLPatchTable)
    (instOpt : Option CLEvaluator)
    (deviceContext : DeviceContext) : Bool × Mem × Option Mem × Option Mem :=
  match instOpt with
  | some inst =>
      inst.EvalPatchesDerivObj limitEval srcBuffer srcDesc dstBuffer dstDesc
        duBuffer duDesc dvBuffer dvDesc numPatchCoords patchCoords patchTable
  | none =>
      match CLEvaluator.Create compileOk srcDesc dstDesc deviceContext with
      | some inst =>
          inst.EvalPatchesDerivObj limitEval srcBuffer srcDesc dstBuffer dstDesc
            duBuffer duDesc dvBuffer dvDesc numPatchCoords patchCoords patchTable
      | none =>
          (false, dstBuffer.BindCLBuffer deviceContext.GetCommandQueue,
           some (duBuffer.BindCLBuffer deviceContext.GetCommandQueue),
           some (dvBuffer.BindCLBuffer deviceContext.GetCommandQueue))

/-- Which vertex record and component a device-buffer position `p`
belongs to under a descriptor: `some (i, c)` when `p` lies `c`
components into record `i`, `none` when no record covers `p`. -/
def writerIndex (d : VertexBufferDescriptor) (p : Nat) : Option (Nat × Nat) :=
  if d.offset ≤ p ∧ (p - d.offset) % d.stride < d.length then
    some ((p - d.offset) / d.stride, (p - d.offset) % d.stride)
  else
    none

/-- Encoding: the position of component `c` of record `i` is classified
as belonging to record `i`, component `c`, whenever records are
non-overlapping (`length ≤ stride`). -/
lemma writerIndex_encode (d : VertexBufferDescriptor)
    (hl : d.length ≤ d.stride) (i c : Nat) (hc : c < d.length) :
    writerIndex d (d.offset + i * d.stride + c) = some (i, c) := by
  have hcs : c < d.stride := Nat.lt_of_lt_of_le hc hl
  have h1 : d.offset + i * d.stride + c - d.offset = c + d.stride * i := by
    rw [Nat.mul_comm d.stride i]; omega
  have hmod : (c + d.stride * i) % d.stride = c := by
    rw [Nat.add_mul_mod_self_left, Nat.mod_eq_of_lt hcs]
  have hdiv : (c + d.stride * i) / d.stride = i := by
    rw [Nat.add_mul_div_left _ _ (Nat.lt_of_le_of_lt (Nat.zero_le c) hcs),
        Nat.div_eq_of_lt hcs, Nat.zero_add]
  unfold writerIndex
  rw [if_pos]
  · rw [h1, hmod, hdiv]
  · refine ⟨by omega, ?_⟩
    rw [h1, hmod]; exact hc

/-- A single record write, seen at a position classified as record `i`
component `c`: only record `i`'s write hits it, and it deposits the
component-`c` value. -/
lemma writeVertex_apply_writer (d : VertexBufferDescriptor)
    (hl : d.length ≤ d.stride) {p i c : Nat}
    (h : writerIndex d p = some (i, c))
    (j : Nat) (vals : Nat → ℚ) (dst : Mem) :
    writeVertex d j vals dst p = if j = i then vals c else dst p := by
  unfold writerIndex at h
  split_ifs at h with hcond
  obtain ⟨hop, hmodlt⟩ := hcond
  have hi : (p - d.offset) / d.stride = i := by
    have := congrArg (fun o => (Option.map Prod.fst o).getD 0) h
    simpa using this
  have hc : (p - d.offset) % d.stride = c := by
    have := congrArg (fun o => (Option.map Prod.snd o).getD 0) h
    simpa using this
  have hdm := Nat.div_add_mod (p - d.offset) d.stride
  rw [hi, hc] at hdm
  -- hdm : d.stride * i + c = p - d.offset
  have hclen : c < d.length := hc ▸ hmodlt
  by_cases hji : j = i
  · subst hji
    rw [if_pos rfl]
    unfold writeVertex
    rw [Nat.mul_comm j d.stride]
    rw [if_pos (by omega)]
    congr 1
    omega
  · rw [if_neg hji]
    unfold writeVertex
    rw [if_neg]
    intro hreg
    apply hji
    have hs : 0 < d.stride := Nat.lt_of_le_of_lt (Nat.zero_le c) (Nat.lt_of_lt_of_le hclen hl)
    have hdivj : (p - d.offset) / d.stride = j := by
      apply Nat.div_eq_of_lt_le
      · rw [Nat.mul_comm j d.stride] at hreg ⊢
        omega
      · rw [Nat.add_mul, Nat.one_mul]
        rw [Nat.mul_comm j d.stride] at hreg ⊢
        omega
    omega

/-- A single record write leaves positions covered by no record
untouched. -/
lemma writeVertex_apply_none (d : VertexBufferDescriptor) {p : Nat}
    (h : writerIndex d p = none)
    (j : Nat) (vals : Nat → ℚ) (dst : Mem) :
    writeVertex d j vals dst p = dst p := by
  unfold writerIndex at h
  split_ifs at h with hcond
  unfold writeVertex
  rw [if_neg]
  intro hreg
  apply hcond
  obtain ⟨h1, h2⟩ := hreg
  constructor
  · omega
  · have key : p - d.offset = (p - d.offset - j * d.stride) + d.stride * j := by
      rw [Nat.mul_comm d.stride j]; omega
    rw [key, Nat.add_mul_mod_self_left]
    calc (p - d.offset - j * d.stride) % d.stride
        ≤ p - d.offset - j * d.stride := Nat.mod_le _ _
      _ < d.length := by omega

/-- Folding record writes over a list of record indices, seen at a
position covered by no record, changes nothing. -/
lemma foldl_writeVertex_none (d : VertexBufferDescriptor) {p : Nat}
    (h : writerIndex d p = none) (vals : Nat → Nat → ℚ)
    (l : List Nat) (dst : Mem) :
    (l.foldl (fun b i => writeVertex d i (vals i) b) dst) p = dst p := by
  induction l generalizing dst with
  | nil => rfl
  | cons a t ih =>
    rw [List.foldl_cons, ih]
    exact writeVertex_apply_none d h a (vals a) dst

/-- Folding record writes over a list of record indices, seen at a
position classified as record `i` component `c`: the position carries
record `i`'s component-`c` value when `i` occurs in the list, and is
untouched otherwise. -/
lemma foldl_writeVertex_some (d : VertexBufferDescriptor)
    (hl : d.length ≤ d.stride) {p i c : Nat}
    (h : writerIndex d p = some (i, c)) (vals : Nat → Nat → ℚ)
    (l : List Nat) (dst : Mem) :
    (l.foldl (fun b i => writeVertex d i (vals i) b) dst) p
      = if i ∈ l then vals i c else dst p := by
  induction l generalizing dst with
  | nil => simp
  | cons a t ih =>
    rw [List.foldl_cons, ih, writeVertex_apply_writer d hl h a (vals a) dst]
    by_cases hit : i ∈ t
    · simp [hit]
    · by_cases hia : a = i
      · subst hia; simp [hit]
      · have hia2 : ¬ i = a := fun hh => hia hh.symm
        simp [hit, hia, hia2]

/-- A stencil dispatch over `[s, t)`, seen at a position covered by no
destination record, changes nothing. -/
lemma evalStencilsRange_apply_none
    (src : Mem) (srcDesc dstDesc : VertexBufferDescriptor)
    (sizes offsets indices : IntMem) (weights : Mem)
    (s t : Nat) (dst : Mem) {p : Nat}
    (h : writerIndex dstDesc p = none) :
    evalStencilsRange src srcDesc dstDesc sizes offsets indices weights
      s t dst p = dst p :=
  foldl_writeVertex_none dstDesc h _ _ dst

/-- A stencil dispatch over `[s, t)`, seen at the position of record
`i`, component `c`: record `i` carries its stencil value when
`s ≤ i < t` and is untouched otherwise. -/
lemma evalStencilsRange_apply_some
    (src : Mem) (srcDesc dstDesc : VertexBufferDescriptor)
    (sizes offsets indices : IntMem) (weights : Mem)
    (s t : Nat) (dst : Mem) {p i c : Nat}
    (hl : dstDesc.length ≤ dstDesc.stride)
    (h : writerIndex dstDesc p = some (i, c)) :
    evalStencilsRange src srcDesc dstDesc sizes offsets indices weights
      s t dst p
      = if s ≤ i ∧ i < t then
          stencilValue srcDesc sizes offsets indices weights src i c
        else dst p := by
  unfold evalStencilsRange
  rw [foldl_writeVertex_some dstDesc hl h _ _ dst]
  by_cases hcase : s ≤ i ∧ i < t
  · rw [if_pos, if_pos hcase]
    rw [List.mem_range'_1]
    omega
  · rw [if_neg, if_neg hcase]
    rw [List.mem_range'_1]
    omega

/-- C6: the convenience `EvalStencils` overload binds each buffer
object via its `BindCLBuffer` capability for the evaluator's command
queue, obtains the table's four buffer handles and count, and forwards
to the raw `EvalStencils` form with `start = 0` and
`end = GetNumStencils()`, returning that call's result. -/
theorem EvalStencilsObj_binds_and_forwards (e : CLEvaluator)
    (srcBuffer : CLBufferObj) (srcDesc : VertexBufferDescriptor)
    (dstBuffer : CLBufferObj) (dstDesc : VertexBufferDescriptor)
    (stencilTable : CLStencilTable) :
    e.EvalStencilsObj srcBuffer srcDesc dstBuffer dstDesc stencilTable
      = e.EvalStencils (srcBuffer.BindCLBuffer e.clCommandQueue) srcDesc
          (dstBuffer.BindCLBuffer e.clCommandQueue) dstDesc
          stencilTable.GetSizesBuffer stencilTable.GetOffsetsBuffer
          stencilTable.GetIndicesBuffer stencilTable.GetWeightsBuffer
          0 stencilTable.GetNumStencils := rfl

/-- C8: when `Compile` fails it returns false and leaves the evaluator
state — in particular any previously compiled kernels — unchanged and
usable; compile failure is reported through the result, never fatal. -/
theorem Compile_failure_preserves_kernels (compileOk : CompileOracle)
    (e : CLEvaluator) (srcDesc dstDesc : VertexBufferDescriptor)
    (h : (e.Compile compileOk srcDesc dstDesc).1 = false) :
    e.Compile compileOk srcDesc dstDesc = (false, e)
    ∧ (e.Compile compileOk srcDesc dstDesc).2.kernels = e.kernels := by
  unfold CLEvaluator.Compile at h ⊢
  split_ifs at h ⊢ with hc
  exact ⟨rfl, rfl⟩

/-- Witness for C8: a concrete failing compile on an already compiled
evaluator leaves it as it was. -/
theorem Compile_failure_preserves_kernels_witness :
    (CLEvaluator.mk 1 2 (some ⟨⟨0, 3, 3⟩, ⟨0, 3, 3⟩⟩)).Compile
        (fun _ _ => false) ⟨0, 4, 4⟩ ⟨0, 4, 4⟩
      = (false, CLEvaluator.mk 1 2 (some ⟨⟨0, 3, 3⟩, ⟨0, 3, 3⟩⟩))
    ∧ ((CLEvaluator.mk 1 2 (some ⟨⟨0, 3, 3⟩, ⟨0, 3, 3⟩⟩)).Compile
        (fun _ _ => false) ⟨0, 4, 4⟩ ⟨0, 4, 4⟩).2.kernels
      = (CLEvaluator.mk 1 2 (some ⟨⟨0, 3, 3⟩, ⟨0, 3, 3⟩⟩)).kernels :=
  Compile_failure_preserves_kernels (fun _ _ => false) _ _ _ rfl

/-- C10: `Create` returns a non-null evaluator exactly when `Compile`
succeeds on the freshly constructed instance (on failure the instance
is destroyed and NULL returned), and any non-null result is already
compiled for the requested descriptor pair. -/
theorem Create_nonnull_iff_compile_succeeds (compileOk : CompileOracle)
    (srcDesc dstDesc : VertexBufferDescriptor)
    (clContext clCommandQueue : Nat) :
    (CLEvaluator.CreateCL compileOk srcDesc dstDesc clContext clCommandQueue).isSome
      = ((CLEvaluator.mk clContext clCommandQueue none).Compile
           compileOk srcDesc dstDesc).1
    ∧ (CLEvaluator.CreateCL compileOk srcDesc dstDesc clContext clCommandQueue).elim
        True (fun e => e.kernels = some ⟨srcDesc, dstDesc⟩) := by
  by_cases hc : compileOk srcDesc dstDesc <;>
    simp [CLEvaluator.CreateCL, CLEvaluator.Compile, hc]

/-- C3: the static generic `EvalStencils` with a non-null instance
returns exactly that instance's member result; with a null instance it
constructs a temporary evaluator compiled for the given
`srcDesc`/`dstDesc` pair, performs one dispatch through it, destroys
it, and returns that dispatch's result (false when on-demand creation
fails). -/
theorem EvalStencilsStatic_dispatch (compileOk : CompileOracle)
    (srcBuffer : CLBufferObj) (srcDesc : VertexBufferDescriptor)
    (dstBuffer : CLBufferObj) (dstDesc : VertexBufferDescriptor)
    (stencilTable : CLStencilTable) (deviceContext : DeviceContext) :
    (∀ inst : CLEvaluator,
        CLEvaluator.EvalStencilsStatic compileOk srcBuffer srcDesc
            dstBuffer dstDesc stencilTable (some inst) deviceContext
          = inst.EvalStencilsObj srcBuffer srcDesc dstBuffer dstDesc stencilTable)
    ∧ CLEvaluator.EvalStencilsStatic compileOk srcBuffer srcDesc
          dstBuffer dstDesc stencilTable none deviceContext
        = (CLEvaluator.Create compileOk srcDesc dstDesc deviceContext).elim
            (false, dstBuffer.BindCLBuffer deviceContext.GetCommandQueue)
            (fun tmp =>
              tmp.EvalStencilsObj srcBuffer srcDesc dstBuffer dstDesc stencilTable)
    ∧ (CLEvaluator.Create compileOk srcDesc dstDesc deviceContext).elim
        True (fun tmp => tmp.kernels = some ⟨srcDesc, dstDesc⟩) := by
  refine ⟨fun inst => rfl, ?_, ?_⟩
  · unfold CLEvaluator.EvalStencilsStatic
    cases h : CLEvaluator.Create compileOk srcDesc dstDesc deviceContext <;> simp
  · unfold CLEvaluator.Create CLEvaluator.CreateCL CLEvaluator.Compile
    by_cases hc : compileOk srcDesc dstDesc <;> simp [hc]

/-- C9: both static `EvalPatches` entry points, called with a null
instance, create the on-demand temporary from `srcDesc` and `dstDesc`
alone — the derivative descriptors are never consulted for the
compilation — and the temporary, when created, holds kernels compiled
for exactly that source/destination pair. -/
theorem EvalPatchesStatic_compiles_with_src_dst_only
    (compileOk : CompileOracle) (limitEval : LimitEval)
    (srcBuffer : CLBufferObj) (srcDesc : VertexBufferDescriptor)
    (dstBuffer : CLBufferObj) (dstDesc : VertexBufferDescriptor)
    (duBuffer : CLBufferObj) (duDesc : VertexBufferDescriptor)
    (dvBuffer : CLBufferObj) (dvDesc : VertexBufferDescriptor)
    (numPatchCoords : Nat) (patchCoords : CLBufferObj)
    (patchTable : CLPatchTable) (deviceContext : DeviceContext) :
    CLEvaluator.EvalPatchesDerivStatic compileOk limitEval srcBuffer srcDesc
        dstBuffer dstDesc duBuffer duDesc dvBuffer dvDesc
        numPatchCoords patchCoords patchTable none deviceContext
      = (CLEvaluator.Create compileOk srcDesc dstDesc deviceContext).elim
          (false, dstBuffer.BindCLBuffer deviceContext.GetCommandQueue,
           some (duBuffer.BindCLBuffer deviceContext.GetCommandQueue),
           some (dvBuffer.BindCLBuffer deviceContext.GetCommandQueue))
          (fun tmp =>
            tmp.EvalPatchesDerivObj limitEval srcBuffer srcDesc dstBuffer dstDesc
              duBuffer duDesc dvBuffer dvDesc numPatchCoords patchCoords patchTable)
    ∧ CLEvaluator.EvalPatchesStatic compileOk limitEval srcBuffer srcDesc
          dstBuffer dstDesc numPatchCoords patchCoords patchTable none deviceContext
        = (CLEvaluator.Create compileOk srcDesc dstDesc deviceContext).elim
            (false, dstBuffer.BindCLBuffer deviceContext.GetCommandQueue, none, none)
            (fun tmp =>
              tmp.EvalPatchesObj limitEval srcBuffer srcDesc dstBuffer dstDesc
                numPatchCoords patchCoords patchTable)
    ∧ (CLEvaluator.Create compileOk srcDesc dstDesc deviceContext).elim
        True (fun tmp => tmp.kernels = some ⟨srcDesc, dstDesc⟩) := by
  refine ⟨?_, ?_, ?_⟩
  · unfold CLEvaluator.EvalPatchesDerivStatic
    cases h : CLEvaluator.Create compileOk srcDesc dstDesc deviceContext <;> simp
  · unfold CLEvaluator.EvalPatchesStatic
    cases h : CLEvaluator.Create compileOk srcDesc dstDesc deviceContext <;> simp
  · unfold CLEvaluator.Create CLEvaluator.CreateCL CLEvaluator.Compile
    by_cases hc : compileOk srcDesc dstDesc <;> simp [hc]

/-- C4: the no-derivative `EvalPatches` overload is exactly the
derivative-capable raw dispatch with null (zero) derivative buffer
handles and default-constructed (empty) descriptors; and on the raw
dispatch, omitting the derivative outputs changes neither the success
result nor the position output — it is a no-op, never an error. -/
theorem EvalPatchesObj_null_derivative_forwarding
    (e : CLEvaluator) (limitEval : LimitEval)
    (srcBuffer : CLBufferObj) (srcDesc : VertexBufferDescriptor)
    (dstBuffer : CLBufferObj) (dstDesc : VertexBufferDescriptor)
    (numPatchCoords : Nat) (patchCoords : CLBufferObj)
    (patchTable : CLPatchTable)
    (src dst : Mem) (du dv : Option Mem)
    (duDesc dvDesc : VertexBufferDescriptor)
    (pcB paB piB ppB : Mem) :
    e.EvalPatchesObj limitEval srcBuffer srcDesc dstBuffer dstDesc
        numPatchCoords patchCoords patchTable
      = e.EvalPatches limitEval (srcBuffer.BindCLBuffer e.clCommandQueue) srcDesc
          (dstBuffer.BindCLBuffer e.clCommandQueue) dstDesc
          none VertexBufferDescriptor.defaultDesc
          none VertexBufferDescriptor.defaultDesc
          numPatchCoords (patchCoords.BindCLBuffer e.clCommandQueue)
          patchTable.GetPatchArrayBuffer patchTable.GetPatchIndexBuffer
          patchTable.GetPatchParamBuffer
    ∧ (e.EvalPatches limitEval src srcDesc dst dstDesc
          none VertexBufferDescriptor.defaultDesc
          none VertexBufferDescriptor.defaultDesc
          numPatchCoords pcB paB piB ppB).1
      = (e.EvalPatches limitEval src srcDesc dst dstDesc du duDesc dv dvDesc
          numPatchCoords pcB paB piB ppB).1
    ∧ (e.EvalPatches limitEval src srcDesc dst dstDesc
          none VertexBufferDescriptor.defaultDesc
          none VertexBufferDescriptor.defaultDesc
          numPatchCoords pcB paB piB ppB).2.1
      = (e.EvalPatches limitEval src srcDesc dst dstDesc du duDesc dv dvDesc
          numPatchCoords pcB paB piB ppB).2.1 := by
  refine ⟨rfl, ?_, ?_⟩ <;>
    cases h : e.kernels <;> simp [CLEvaluator.EvalPatches, h]

/-- C5: for identical source data, descriptors, patch coordinates and
patch table, the derivative-capable convenience `EvalPatches` and the
no-derivative overload report the same success and write exactly the
same position values; the derivative buffers are additional outputs
only and never alter the primary position result. -/
theorem EvalPatches_position_independent_of_derivatives
    (e : CLEvaluator) (limitEval : LimitEval)
    (srcBuffer : CLBufferObj) (srcDesc : VertexBufferDescriptor)
    (dstBuffer : CLBufferObj) (dstDesc : VertexBufferDescriptor)
    (duBuffer : CLBufferObj) (duDesc : VertexBufferDescriptor)
    (dvBuffer : CLBufferObj) (dvDesc : VertexBufferDescriptor)
    (numPatchCoords : Nat) (patchCoords : CLBufferObj)
    (patchTable : CLPatchTable) :
    (e.EvalPatchesDerivObj limitEval srcBuffer srcDesc dstBuffer dstDesc
        duBuffer duDesc dvBuffer dvDesc numPatchCoords patchCoords patchTable).1
      = (e.EvalPatchesObj limitEval srcBuffer srcDesc dstBuffer dstDesc
          numPatchCoords patchCoords patchTable).1
    ∧ (e.EvalPatchesDerivObj limitEval srcBuffer srcDesc dstBuffer dstDesc
        duBuffer duDesc dvBuffer dvDesc numPatchCoords patchCoords patchTable).2.1
      = (e.EvalPatchesObj limitEval srcBuffer srcDesc dstBuffer dstDesc
          numPatchCoords patchCoords patchTable).2.1 := by
  cases h : e.kernels <;>
    simp [CLEvaluator.EvalPatchesDerivObj, CLEvaluator.EvalPatchesObj,
          CLEvaluator.EvalPatches, h]

/-- C2: on an evaluator with no successfully compiled kernel, every
`EvalStencils` and `EvalPatches` entry point — raw or buffer-object —
returns false and leaves every destination buffer unchanged. -/
theorem Eval_uncompiled_returns_false (e : CLEvaluator)
    (h : e.kernels = none) (limitEval : LimitEval)
    (src dst : Mem) (srcDesc dstDesc : VertexBufferDescriptor)
    (sizes offsets indices : IntMem) (weights : Mem) (start endIdx : Nat)
    (du dv : Option Mem) (duDesc dvDesc : VertexBufferDescriptor)
    (numPatchCoords : Nat) (pcB paB piB ppB : Mem)
    (srcBuffer dstBuffer duBuffer dvBuffer patchCoords : CLBufferObj)
    (stencilTable : CLStencilTable) (patchTable : CLPatchTable) :
    e.EvalStencils src srcDesc dst dstDesc sizes offsets indices weights
        start endIdx = (false, dst)
    ∧ e.EvalPatches limitEval src srcDesc dst dstDesc du duDesc dv dvDesc
        numPatchCoords pcB paB piB ppB = (false, dst, du, dv)
    ∧ e.EvalStencilsObj srcBuffer srcDesc dstBuffer dstDesc stencilTable
        = (false, dstBuffer.BindCLBuffer e.clCommandQueue)
    ∧ e.EvalPatchesObj limitEval srcBuffer srcDesc dstBuffer dstDesc
        numPatchCoords patchCoords patchTable
        = (false, dstBuffer.BindCLBuffer e.clCommandQueue, none, none)
    ∧ e.EvalPatchesDerivObj limitEval srcBuffer srcDesc dstBuffer dstDesc
        duBuffer duDesc dvBuffer dvDesc numPatchCoords patchCoords patchTable
        = (false, dstBuffer.BindCLBuffer e.clCommandQueue,
           some (duBuffer.BindCLBuffer e.clCommandQueue),
           some (dvBuffer.BindCLBuffer e.clCommandQueue)) := by
  refine ⟨?_, ?_, ?_, ?_, ?_⟩ <;>
    simp [CLEvaluator.EvalStencils, CLEvaluator.EvalPatches,
          CLEvaluator.EvalStencilsObj, CLEvaluator.EvalPatchesObj,
          CLEvaluator.EvalPatchesDerivObj, h]

/-- C1: a raw `EvalStencils` dispatch on a compiled evaluator succeeds
and writes, for each output vertex `i` in `[start, endIdx)` and each
component `c < dstDesc.length`, the sum over `k < sizes[i]` of
`weights[offsets[i]+k] * src[indices[offsets[i]+k]]` at destination
position `dstDesc.offset + i * dstDesc.stride + c`, the source being
read through `srcDesc`; the spec's concrete two-stencil scenario
(checked in the witness) yields `dst = [10, 15]`. -/
theorem EvalStencils_semantics (e : CLEvaluator) (k : CompiledProgram)
    (src dst : Mem) (srcDesc dstDesc : VertexBufferDescriptor)
    (sizes offsets indices : IntMem) (weights : Mem)
    (start endIdx i c : Nat)
    (hk : e.kernels = some k)
    (hl : dstDesc.length ≤ dstDesc.stride)
    (hi1 : start ≤ i) (hi2 : i < endIdx) (hc : c < dstDesc.length) :
    (e.EvalStencils src srcDesc dst dstDesc sizes offsets indices weights
        start endIdx).1 = true
    ∧ (e.EvalStencils src srcDesc dst dstDesc sizes offsets indices weights
        start endIdx).2 (dstDesc.offset + i * dstDesc.stride + c)
      = ∑ j ∈ Finset.range (sizes i),
          weights (offsets i + j) *
            src (srcDesc.offset + indices (offsets i + j) * srcDesc.stride + c) := by
  constructor
  · simp [CLEvaluator.EvalStencils, hk]
  · have hw := writerIndex_encode dstDesc hl i c hc
    simp only [CLEvaluator.EvalStencils, hk]
    rw [evalStencilsRange_apply_some src srcDesc dstDesc sizes offsets indices
          weights start endIdx dst hl hw,
        if_pos ⟨hi1, hi2⟩]
    rfl

/-- C7: dispatching `EvalStencils` over `[start, endIdx)` and then over
the two complementary sub-ranges of `[0, n)` produces exactly the
destination contents of a single dispatch over `[0, n)`: output
vertices are computed independently, destination records being
non-overlapping under the descriptor invariant `length ≤ stride`. -/
theorem EvalStencils_range_split (e : CLEvaluator)
    (src dst : Mem) (srcDesc dstDesc : VertexBufferDescriptor)
    (sizes offsets indices : IntMem) (weights : Mem)
    (start endIdx n : Nat)
    (hl : dstDesc.length ≤ dstDesc.stride)
    (h1 : start ≤ endIdx) (h2 : endIdx ≤ n) :
    (e.EvalStencils src srcDesc
        (e.EvalStencils src srcDesc
            (e.EvalStencils src srcDesc dst dstDesc sizes offsets indices
                weights start endIdx).2
            dstDesc sizes offsets indices weights 0 start).2
        dstDesc sizes offsets indices weights endIdx n).2
      = (e.EvalStencils src srcDesc dst dstDesc sizes offsets indices weights
          0 n).2 := by
  cases hk : e.kernels with
  | none => simp [CLEvaluator.EvalStencils, hk]
  | some k =>
    simp only [CLEvaluator.EvalStencils, hk]
    funext p
    cases hw : writerIndex dstDesc p with
    | none =>
      rw [evalStencilsRange_apply_none _ _ _ _ _ _ _ _ _ _ hw,
          evalStencilsRange_apply_none _ _ _ _ _ _ _ _ _ _ hw,
          evalStencilsRange_apply_none _ _ _ _ _ _ _ _ _ _ hw,
          evalStencilsRange_apply_none _ _ _ _ _ _ _ _ _ _ hw]
    | some ic =>
      obtain ⟨i, c⟩ := ic
      rw [evalStencilsRange_apply_some _ _ _ _ _ _ _ _ _ _ hl hw,
          evalStencilsRange_apply_some _ _ _ _ _ _ _ _ _ _ hl hw,
          evalStencilsRange_apply_some _ _ _ _ _ _ _ _ _ _ hl hw,
          evalStencilsRange_apply_some _ _ _ _ _ _ _ _ _ _ hl hw]
      split_ifs <;> first | rfl | omega

/-- A float device buffer holding the given values, zero elsewhere. -/
def listMem (l : List ℚ) : Mem := fun p => l.getD p 0

/-- An int device buffer holding the given values, zero elsewhere. -/
def listIntMem (l : List Nat) : IntMem := fun p => l.getD p 0

/-- An evaluator fresh from the constructor: no compiled kernels. -/
def freshEvaluator : CLEvaluator :=
  { clContext := 5, clCommandQueue := 9, kernels := none }

/-- An evaluator whose kernels are compiled for one-component,
stride-one source and destination layouts. -/
def testCompiledEvaluator : CLEvaluator :=
  { clContext := 1, clCommandQueue := 2,
    kernels := some ⟨⟨0, 1, 1⟩, ⟨0, 1, 1⟩⟩ }

/-- A buffer object that binds to an all-zero device buffer. -/
def zeroBufferObj : CLBufferObj := { BindCLBuffer := fun _ => listMem [] }

/-- An empty stencil table object. -/
def emptyStencilTable : CLStencilTable :=
  ⟨listIntMem [], listIntMem [], listIntMem [], listMem [], 0⟩

/-- An empty patch table object. -/
def emptyPatchTable : CLPatchTable := ⟨listMem [], listMem [], listMem []⟩

/-- A limit evaluation yielding zero everywhere. -/
def zeroLimitEval : LimitEval := fun _ _ _ _ _ _ _ _ => (0, 0, 0)

/-- Witness for C2: the raw stencil dispatch on a never-compiled
evaluator reports false and returns the destination untouched. -/
theorem Eval_uncompiled_returns_false_witness :
    freshEvaluator.EvalStencils (listMem [10, 20]) ⟨0, 1, 1⟩
        (listMem []) ⟨0, 1, 1⟩ (listIntMem [1, 2]) (listIntMem [0, 1])
        (listIntMem [0, 0, 1]) (listMem [1, 1/2, 1/2]) 0 2
      = (false, listMem []) :=
  (Eval_uncompiled_returns_false freshEvaluator rfl zeroLimitEval
      (listMem [10, 20]) (listMem []) ⟨0, 1, 1⟩ ⟨0, 1, 1⟩
      (listIntMem [1, 2]) (listIntMem [0, 1]) (listIntMem [0, 0, 1])
      (listMem [1, 1/2, 1/2]) 0 2 none none ⟨0, 0, 0⟩ ⟨0, 0, 0⟩ 0
      (listMem []) (listMem []) (listMem []) (listMem [])
      zeroBufferObj zeroBufferObj zeroBufferObj zeroBufferObj zeroBufferObj
      emptyStencilTable emptyPatchTable).1

/-- Witness for C1: the spec's concrete scenario — `numStencils = 2`,
`sizes = [1, 2]`, `offsets = [0, 1]`, `indices = [0, 0, 1]`,
`weights = [1, 1/2, 1/2]`, one-component source `[10, 20]` — succeeds
and produces `dst = [10, 15]`. -/
theorem EvalStencils_semantics_witness :
    (testCompiledEvaluator.EvalStencils (listMem [10, 20]) ⟨0, 1, 1⟩
        (listMem []) ⟨0, 1, 1⟩ (listIntMem [1, 2]) (listIntMem [0, 1])
        (listIntMem [0, 0, 1]) (listMem [1, 1/2, 1/2]) 0 2).1 = true
    ∧ (testCompiledEvaluator.EvalStencils (listMem [10, 20]) ⟨0, 1, 1⟩
        (listMem []) ⟨0, 1, 1⟩ (listIntMem [1, 2]) (listIntMem [0, 1])
        (listIntMem [0, 0, 1]) (listMem [1, 1/2, 1/2]) 0 2).2 0 = 10
    ∧ (testCompiledEvaluator.EvalStencils (listMem [10, 20]) ⟨0, 1, 1⟩
        (listMem []) ⟨0, 1, 1⟩ (listIntMem [1, 2]) (listIntMem [0, 1])
        (listIntMem [0, 0, 1]) (listMem [1, 1/2, 1/2]) 0 2).2 1 = 15 := by
  refine ⟨?_, ?_, ?_⟩
  · exact (EvalStencils_semantics testCompiledEvaluator ⟨⟨0, 1, 1⟩, ⟨0, 1, 1⟩⟩
      (listMem [10, 20]) (listMem []) ⟨0, 1, 1⟩ ⟨0, 1, 1⟩
      (listIntMem [1, 2]) (listIntMem [0, 1]) (listIntMem [0, 0, 1])
      (listMem [1, 1/2, 1/2]) 0 2 0 0 rfl (by decide) (by decide) (by decide)
      (by decide)).1
  · exact (EvalStencils_semantics testCompiledEvaluator ⟨⟨0, 1, 1⟩, ⟨0, 1, 1⟩⟩
      (listMem [10, 20]) (listMem []) ⟨0, 1, 1⟩ ⟨0, 1, 1⟩
      (listIntMem [1, 2]) (listIntMem [0, 1]) (listIntMem [0, 0, 1])
      (listMem [1, 1/2, 1/2]) 0 2 0 0 rfl (by decide) (by decide) (by decide)
      (by decide)).2.trans
      (by norm_num [listMem, listIntMem, Finset.sum_range_succ])
  · exact (EvalStencils_semantics testCompiledEvaluator ⟨⟨0, 1, 1⟩, ⟨0, 1, 1⟩⟩
      (listMem [10, 20]) (listMem []) ⟨0, 1, 1⟩ ⟨0, 1, 1⟩
      (listIntMem [1, 2]) (listIntMem [0, 1]) (listIntMem [0, 0, 1])
      (listMem [1, 1/2, 1/2]) 0 2 1 0 rfl (by decide) (by decide) (by decide)
      (by decide)).2.trans
      (by norm_num [listMem, listIntMem, Finset.sum_range_succ])

/-- Witness for C7: splitting the concrete two-stencil dispatch at
index 1 — range `[1, 2)` first, then `[0, 1)` and the empty `[2, 2)` —
reproduces the single dispatch over `[0, 2)`. -/
theorem EvalStencils_range_split_witness :
    (testCompiledEvaluator.EvalStencils (listMem [10, 20]) ⟨0, 1, 1⟩
        (testCompiledEvaluator.EvalStencils (listMem [10, 20]) ⟨0, 1, 1⟩
            (testCompiledEvaluator.EvalStencils (listMem [10, 20]) ⟨0, 1, 1⟩
                (listMem []) ⟨0, 1, 1⟩ (listIntMem [1, 2]) (listIntMem [0, 1])
                (listIntMem [0, 0, 1]) (listMem [1, 1/2, 1/2]) 1 2).2
            ⟨0, 1, 1⟩ (listIntMem [1, 2]) (listIntMem [0, 1])
            (listIntMem [0, 0, 1]) (listMem [1, 1/2, 1/2]) 0 1).2
        ⟨0, 1, 1⟩ (listIntMem [1, 2]) (listIntMem [0, 1])
        (listIntMem [0, 0, 1]) (listMem [1, 1/2, 1/2]) 2 2).2
      = (testCompiledEvaluator.EvalStencils (listMem [10, 20]) ⟨0, 1, 1⟩
          (listMem []) ⟨0, 1, 1⟩ (listIntMem [1, 2]) (listIntMem [0, 1])
          (listIntMem [0, 0, 1]) (listMem [1, 1/2, 1/2]) 0 2).2 :=
  EvalStencils_range_split testCompiledEvaluator (listMem [10, 20]) (listMem [])
    ⟨0, 1, 1⟩ ⟨0, 1, 1⟩ (listIntMem [1, 2]) (listIntMem [0, 1])
    (listIntMem [0, 0, 1]) (listMem [1, 1/2, 1/2]) 1 2 2
    (by decide) (by decide) (by decide)
